import Mathlib

/-!
Verification of the denura recurrent-network cells and drivers
(src/denura/ran.py, src/denura/topdown.py) against their specification.

Modelling conventions.
Tensors are total functions over natural-number indices with rational entries:
a batched matrix of shape (batch, width) is a function of type Mat below, and a
stacked per-layer state of shape (layers, batch, hidden) is a function of type
Stacked.  Shapes live in the module and cell records (input_size, hidden_size,
num_layers), exactly as in the Python modules, and every reduction carries its
summation bound explicitly.  The elementwise activations sigmoid and tanh, the
dropout layer and the random parameter initialisation are external collaborators
of the code (spec, sections 1 and 6); they enter the embedding as explicit
function parameters.  Integer sequence lengths are modelled as functions to Int,
matching torch.LongTensor entries.  Fallible Python code (attribute errors,
failed unpacking, assertion failures) is modelled with Option, where none marks
the raised exception.
-/

/-- A batched matrix of shape (batch, width): entry (b, j) is the value for batch
sample b at column j. -/
abbrev Mat : Type := ℕ → ℕ → ℚ

/-- A stacked per-layer state of shape (layers, batch, hidden). -/
abbrev Stacked : Type := ℕ → Mat

/-- The all-zero matrix, used as the default value of out-of-range reads. -/
def zeroMat : Mat := fun _ _ => 0

/-- torch.mm for a (batch, k) by (k, width) product: entry (b, j) is the dot product
of row b of A with column j of B, the inner dimension being k. -/
def mm (k : ℕ) (A B : Mat) : Mat :=
  fun b j => ∑ x ∈ Finset.range k, A b x * B x j

/-- torch.addmm bias_batch h W: bias_batch + mm h W with inner dimension k. -/
def addmm (k : ℕ) (bias_batch A B : Mat) : Mat :=
  fun b j => bias_batch b j + mm k A B b j

/-- torch.split along dim 1 into chunks of width hsz: chunk p of G reads the columns
p * hsz, ..., p * hsz + hsz - 1 of G. -/
def splitChunk (hsz p : ℕ) (G : Mat) : Mat :=
  fun b j => G b (p * hsz + j)

/- ===== RANCell (src/denura/ran.py, lines 14-82) ===== -/

/-- The parameters of a RANCell (ran.py, constructor lines 17-39).  weight_ih maps
input to the 2 * hidden_size gate pre-activations, weight_hh maps the hidden state
to them, weight_ic is the separate content projection.  When use_bias is True the
constructor stores the bias under the attribute name bias_h; when use_bias is False
it registers a parameter named bias with value None and the attribute bias_h is
never created, which is recorded here as bias_h = none. -/
structure RANCell where
  input_size : ℕ
  hidden_size : ℕ
  weight_ih : Mat
  weight_hh : Mat
  weight_ic : Mat
  bias_h : Option (ℕ → ℚ)

/-- RANCell constructor (ran.py lines 17-39).  The uniform random draw of the weight
tensors performed by reset_parameters is external (spec, section 1), so the drawn
values arrive as the arguments w_ih, w_hh, w_ic, b; with use_bias the bias is then
reset to zero, which the caller models through the value of b. -/
def RANCell.init (input_size hidden_size : ℕ) (use_bias : Bool)
    (w_ih w_hh w_ic : Mat) (b : ℕ → ℚ) : RANCell :=
  { input_size := input_size, hidden_size := hidden_size,
    weight_ih := w_ih, weight_hh := w_hh, weight_ic := w_ic,
    bias_h := if use_bias then some b else none }

/-- Body of RANCell.forward (ran.py lines 66-78) once the bias attribute has been
read successfully.  sigma and tau are the external torch.sigmoid and torch.tanh. -/
def RANCell.run (sigma tau : ℚ → ℚ) (cell : RANCell) (bias_h : ℕ → ℚ)
    (input_ : Mat) (hx : Mat × Mat) : Mat × Mat :=
  let h_0 := hx.1
  let c_0 := hx.2
  -- bias_batch = self.bias_h.unsqueeze(0).expand(batch_size, ...)
  let bias_batch : Mat := fun _ j => bias_h j
  let wh_b := addmm cell.hidden_size bias_batch h_0 cell.weight_hh
  let wi := mm cell.input_size input_ cell.weight_ih
  let wc := mm cell.input_size input_ cell.weight_ic
  -- f, i = torch.split(wh_b + wi, split_size=hidden_size, dim=1)
  let f := splitChunk cell.hidden_size 0 (fun b j => wh_b b j + wi b j)
  let i := splitChunk cell.hidden_size 1 (fun b j => wh_b b j + wi b j)
  let c_1 : Mat := fun b j => sigma (i b j) * wc b j + sigma (f b j) * tau (c_0 b j)
  let h_1 : Mat := fun b j => tau (c_1 b j)
  (h_1, c_1)

/-- RANCell.forward (ran.py lines 54-78).  The body reads self.bias_h
unconditionally (line 68); when the cell was constructed with use_bias = False that
attribute does not exist and the call raises AttributeError, modelled as none. -/
def RANCell.forward (sigma tau : ℚ → ℚ) (cell : RANCell)
    (input_ : Mat) (hx : Mat × Mat) : Option (Mat × Mat) :=
  match cell.bias_h with
  | none => none
  | some bias_h => some (cell.run sigma tau bias_h input_ hx)

/- ===== TopDownLSTMCell (src/denura/topdown.py, lines 11-84) ===== -/

/-- The parameters of a TopDownLSTMCell (topdown.py, constructor lines 15-38):
weight_bh maps the bottom input, weight_hh the recurrent hidden state and
weight_th the top input to the 4 * hidden_size gate pre-activations.  With
use_bias = False the constructor registers the parameter bias as None. -/
structure TopDownLSTMCell where
  input_size : ℕ
  hidden_size : ℕ
  weight_bh : Mat
  weight_hh : Mat
  weight_th : Mat
  bias : Option (ℕ → ℚ)

/-- TopDownLSTMCell constructor (topdown.py lines 15-38); random initialisation is
external as in RANCell.init. -/
def TopDownLSTMCell.init (input_size hidden_size : ℕ) (use_bias : Bool)
    (w_bh w_hh w_th : Mat) (b : ℕ → ℚ) : TopDownLSTMCell :=
  { input_size := input_size, hidden_size := hidden_size,
    weight_bh := w_bh, weight_hh := w_hh, weight_th := w_th,
    bias := if use_bias then some b else none }

/-- Body of TopDownLSTMCell.forward (topdown.py lines 69-80) once the bias has been
read successfully. -/
def TopDownLSTMCell.run (sigma tau : ℚ → ℚ) (cell : TopDownLSTMCell) (bias : ℕ → ℚ)
    (input_bottom input_top : Mat) (hx : Mat × Mat) : Mat × Mat :=
  let h_0 := hx.1
  let c_0 := hx.2
  let bias_batch : Mat := fun _ j => bias j
  let wh_b := addmm cell.hidden_size bias_batch h_0 cell.weight_hh
  let wb := mm cell.input_size input_bottom cell.weight_bh
  -- input_top comes from a hidden state, so its width is hidden_size
  let wt := mm cell.hidden_size input_top cell.weight_th
  -- f, i, o, g = torch.split(wh_b + wb + wt, split_size=hidden_size, dim=1)
  let f := splitChunk cell.hidden_size 0 (fun b j => wh_b b j + wb b j + wt b j)
  let i := splitChunk cell.hidden_size 1 (fun b j => wh_b b j + wb b j + wt b j)
  let o := splitChunk cell.hidden_size 2 (fun b j => wh_b b j + wb b j + wt b j)
  let g := splitChunk cell.hidden_size 3 (fun b j => wh_b b j + wb b j + wt b j)
  let c_1 : Mat := fun b j => sigma (f b j) * c_0 b j + sigma (i b j) * tau (g b j)
  let h_1 : Mat := fun b j => sigma (o b j) * tau (c_1 b j)
  (h_1, c_1)

/-- TopDownLSTMCell.forward (topdown.py lines 53-80).  Line 71 evaluates
self.bias.unsqueeze(0) unconditionally; when use_bias = False the stored bias is
None and the call raises AttributeError, modelled as none. -/
def TopDownLSTMCell.forward (sigma tau : ℚ → ℚ) (cell : TopDownLSTMCell)
    (input_bottom input_top : Mat) (hx : Mat × Mat) : Option (Mat × Mat) :=
  match cell.bias with
  | none => none
  | some bias => some (cell.run sigma tau bias input_bottom input_top hx)

/- ===== LSTMCell (external top layer of the TopDown stack) ===== -/

/-- Modelled from the spec: topdown.py imports LSTMCell from lstm.py, which is not
under src/.  Spec section 6 describes it as a bottom-only recurrent cell exposing
forward(input, (h, c)) -> (h, c) with the conventional four-gate LSTM update, and
section 4.2 fixes the in-repo gate layout (f, i, o, g) and the bias handling shared
by the sibling cells. -/
structure LSTMCell where
  input_size : ℕ
  hidden_size : ℕ
  weight_ih : Mat
  weight_hh : Mat
  bias : Option (ℕ → ℚ)

/-- Modelled from the spec: body of the conventional four-gate LSTM update of the
external LSTMCell (spec section 6), with the gate layout of section 4.2. -/
def LSTMCell.run (sigma tau : ℚ → ℚ) (cell : LSTMCell) (bias : ℕ → ℚ)
    (input_ : Mat) (hx : Mat × Mat) : Mat × Mat :=
  let h_0 := hx.1
  let c_0 := hx.2
  let bias_batch : Mat := fun _ j => bias j
  let wh_b := addmm cell.hidden_size bias_batch h_0 cell.weight_hh
  let wi := mm cell.input_size input_ cell.weight_ih
  let f := splitChunk cell.hidden_size 0 (fun b j => wh_b b j + wi b j)
  let i := splitChunk cell.hidden_size 1 (fun b j => wh_b b j + wi b j)
  let o := splitChunk cell.hidden_size 2 (fun b j => wh_b b j + wi b j)
  let g := splitChunk cell.hidden_size 3 (fun b j => wh_b b j + wi b j)
  let c_1 : Mat := fun b j => sigma (f b j) * c_0 b j + sigma (i b j) * tau (g b j)
  let h_1 : Mat := fun b j => sigma (o b j) * tau (c_1 b j)
  (h_1, c_1)

/-- Modelled from the spec: forward of the external LSTMCell (spec section 6),
with the bias handling of the sibling in-repo cells. -/
def LSTMCell.forward (sigma tau : ℚ → ℚ) (cell : LSTMCell)
    (input_ : Mat) (hx : Mat × Mat) : Option (Mat × Mat) :=
  match cell.bias with
  | none => none
  | some bias => some (cell.run sigma tau bias input_ hx)

/- ===== Spec-side gate formulas (spec sections 4.1 and 4.2) ===== -/

/-- The gate pre-activation block of the spec for the RAN cell (section 4.1, step 1):
column block starting at col of input dot W_ih + h_prev dot W_hh + bias. -/
def ranSpecGate (cell : RANCell) (bias : ℕ → ℚ) (input_ h_prev : Mat) (col : ℕ) : Mat :=
  fun b j =>
    (∑ k ∈ Finset.range cell.input_size, input_ b k * cell.weight_ih k (col + j))
      + (∑ k ∈ Finset.range cell.hidden_size, h_prev b k * cell.weight_hh k (col + j))
      + bias (col + j)

/-- The content projection of the spec for the RAN cell (section 4.1, step 2):
input dot W_ic, no bias, no nonlinearity. -/
def ranSpecContent (cell : RANCell) (input_ : Mat) : Mat :=
  fun b j => ∑ k ∈ Finset.range cell.input_size, input_ b k * cell.weight_ic k j

/-- The next cell state of the spec for the RAN cell (section 4.1, step 3):
sigmoid of the input gate times the content plus sigmoid of the forget gate times
tanh of the previous cell state, with the forget gate the first block and the input
gate the second block of the gate pre-activations. -/
def ranSpecCNext (sigma tau : ℚ → ℚ) (cell : RANCell) (bias : ℕ → ℚ)
    (input_ h_prev c_prev : Mat) : Mat :=
  fun b j =>
    sigma (ranSpecGate cell bias input_ h_prev cell.hidden_size b j)
        * ranSpecContent cell input_ b j
      + sigma (ranSpecGate cell bias input_ h_prev 0 b j) * tau (c_prev b j)

/-- The gate pre-activation block of the spec for the TopDown cell (section 4.2,
step 1): column block starting at col of input_bottom dot W_bh + input_top dot W_th
+ h_prev dot W_hh + bias. -/
def tdSpecGate (cell : TopDownLSTMCell) (bias : ℕ → ℚ)
    (input_bottom input_top h_prev : Mat) (col : ℕ) : Mat :=
  fun b j =>
    (∑ k ∈ Finset.range cell.input_size, input_bottom b k * cell.weight_bh k (col + j))
      + (∑ k ∈ Finset.range cell.hidden_size, input_top b k * cell.weight_th k (col + j))
      + (∑ k ∈ Finset.range cell.hidden_size, h_prev b k * cell.weight_hh k (col + j))
      + bias (col + j)

/-- The next cell state of the spec for the TopDown cell (section 4.2, step 2):
sigmoid of the forget gate (block 0) times the previous cell state plus the sigmoid
of the input gate (block 1) times tanh of the candidate gate (block 3). -/
def tdSpecCNext (sigma tau : ℚ → ℚ) (cell : TopDownLSTMCell) (bias : ℕ → ℚ)
    (input_bottom input_top h_prev c_prev : Mat) : Mat :=
  fun b j =>
    sigma (tdSpecGate cell bias input_bottom input_top h_prev 0 b j) * c_prev b j
      + sigma (tdSpecGate cell bias input_bottom input_top h_prev cell.hidden_size b j)
          * tau (tdSpecGate cell bias input_bottom input_top h_prev (3 * cell.hidden_size) b j)

/- ===== RAN driver (src/denura/ran.py, lines 85-164) ===== -/

/-- The per-sample, per-timestep mask of RAN._forward_rnn (ran.py line 123):
mask = (time < length).float().unsqueeze(1).expand_as(h_next), so every column of
row b holds 1 when time < length[b] and 0 otherwise. -/
def ranMask (length : ℕ → ℤ) (time : ℕ) : Mat :=
  fun b _ => if (time : ℤ) < length b then 1 else 0

/-- One iteration of the time loop of RAN._forward_rnn (ran.py lines 121-128): run
the cell, blend the new state with the previous one through the mask, append the
blended hidden state to the output list and carry the blended state forward.  The
accumulator carries (output list so far, current hx); a failing cell call
propagates as none. -/
def ranStep (sigma tau : ℚ → ℚ) (cell : RANCell) (length : ℕ → ℤ) (input_ : ℕ → Mat)
    (acc : List Mat × (Mat × Mat)) (time : ℕ) : Option (List Mat × (Mat × Mat)) :=
  match cell.forward sigma tau (input_ time) acc.2 with
  | none => none
  | some hc =>
    let mask := ranMask length time
    let h_next : Mat := fun b j => hc.1 b j * mask b j + acc.2.1 b j * (1 - mask b j)
    let c_next : Mat := fun b j => hc.2 b j * mask b j + acc.2.2 b j * (1 - mask b j)
    some (acc.1 ++ [h_next], (h_next, c_next))

/-- The state of the loop of RAN._forward_rnn after its first t iterations (times
0, ..., t-1 processed in order). -/
def ranGo (sigma tau : ℚ → ℚ) (cell : RANCell) (length : ℕ → ℤ) (input_ : ℕ → Mat)
    (hx : Mat × Mat) : ℕ → Option (List Mat × (Mat × Mat))
  | 0 => some ([], hx)
  | t + 1 => (ranGo sigma tau cell length input_ hx t).bind
      (fun acc => ranStep sigma tau cell length input_ acc t)

/-- RAN._forward_rnn (ran.py lines 117-130): unroll the cell over max_time steps;
the returned list is the stacked per-timestep output and the pair is the final
(h, c). -/
def RAN._forward_rnn (sigma tau : ℚ → ℚ) (cell : RANCell) (input_ : ℕ → Mat)
    (hx : Mat × Mat) (length : ℕ → ℤ) (max_time : ℕ) :
    Option (List Mat × (Mat × Mat)) :=
  ranGo sigma tau cell length input_ hx max_time

/-- The unmasked recurrence of the spec (section 8): the same unroll as
RAN._forward_rnn but with the masking step removed, so the raw cell output is
appended and carried forward unchanged. -/
def ranUnmaskedStep (sigma tau : ℚ → ℚ) (cell : RANCell) (input_ : ℕ → Mat)
    (acc : List Mat × (Mat × Mat)) (time : ℕ) : Option (List Mat × (Mat × Mat)) :=
  match cell.forward sigma tau (input_ time) acc.2 with
  | none => none
  | some hc => some (acc.1 ++ [hc.1], (hc.1, hc.2))

/-- The state of the unmasked recurrence of the spec after its first t steps. -/
def ranUnmaskedGo (sigma tau : ℚ → ℚ) (cell : RANCell) (input_ : ℕ → Mat)
    (hx : Mat × Mat) : ℕ → Option (List Mat × (Mat × Mat))
  | 0 => some ([], hx)
  | t + 1 => (ranUnmaskedGo sigma tau cell input_ hx t).bind
      (fun acc => ranUnmaskedStep sigma tau cell input_ acc t)

/-- The RAN module (ran.py lines 85-107): the stack of per-layer cells.  Dropout and
the batch-first transpose are external; forward below models the batch_first =
False orientation, in which the input is already time-major. -/
structure RAN where
  input_size : ℕ
  hidden_size : ℕ
  num_layers : ℕ
  cells : List RANCell

/-- RAN constructor (ran.py lines 89-107): layer 0 has width input_size, every
later layer has width hidden_size; mkCell models the externally initialised
RANCell built for a given layer input size. -/
def RAN.init (input_size hidden_size num_layers : ℕ) (mkCell : ℕ → RANCell) : RAN :=
  { input_size := input_size, hidden_size := hidden_size, num_layers := num_layers,
    cells := (List.range num_layers).map
      (fun layer => mkCell (if layer = 0 then input_size else hidden_size)) }

/-- Read a stacked output list as a time-indexed function; out-of-range reads give
the zero matrix and are never consumed by the drivers. -/
def seqToFun (out : List Mat) : ℕ → Mat := fun t => out.getD t zeroMat

/-- The layer loop of RAN.forward (ran.py lines 147-158) after its first l
iterations.  The accumulator carries (current input sequence, output of the last
processed layer, collected per-layer final states); dropoutSeq is the external
dropout layer applied to the stacked output of every non-terminal layer. -/
def ranLayers (sigma tau : ℚ → ℚ) (dropoutSeq : List Mat → List Mat) (m : RAN)
    (input_ : ℕ → Mat) (length : ℕ → ℤ) (max_time : ℕ)
    (hx : Stacked × Stacked) : ℕ → Option ((ℕ → Mat) × List Mat × List (Mat × Mat))
  | 0 => some (input_, [], [])
  | l + 1 => (ranLayers sigma tau dropoutSeq m input_ length max_time hx l).bind
      (fun acc =>
        match m.cells.get? l with
        | none => none
        | some cell =>
          match RAN._forward_rnn sigma tau cell acc.1 (hx.1 l, hx.2 l) length max_time with
          | none => none
          | some res =>
            let layer_output := res.1
            -- dropout is not applied to the last layer (ran.py lines 152-156)
            let next_input := if l < m.num_layers - 1 then dropoutSeq layer_output
              else layer_output
            some (seqToFun next_input, layer_output, acc.2.2 ++ [res.2]))

/-- RAN.forward (ran.py lines 132-164) on time-major input.  max_time is the size
of the time dimension of the input tensor.  A missing length argument defaults to
max_time for every sample (line 137).  When hx is omitted, line 142 builds the
zero state from a bare name num_layers that is undefined in ran.py, so the call
raises NameError; this is modelled as none. -/
def RAN.forward (sigma tau : ℚ → ℚ) (dropoutSeq : List Mat → List Mat) (m : RAN)
    (input_ : ℕ → Mat) (max_time : ℕ) (hx : Option (Stacked × Stacked))
    (length : Option (ℕ → ℤ)) : Option (List Mat × (Stacked × Stacked)) :=
  let len : ℕ → ℤ := match length with
    | none => fun _ => (max_time : ℤ)
    | some l => l
  match hx with
  | none => none
  | some hx0 =>
    match ranLayers sigma tau dropoutSeq m input_ len max_time hx0 m.num_layers with
    | none => none
    | some acc =>
      some (acc.2.1,
        (fun layer => (acc.2.2.getD layer (zeroMat, zeroMat)).1,
         fun layer => (acc.2.2.getD layer (zeroMat, zeroMat)).2))

/- ===== SequenceMasker and TopDown driver (src/denura/topdown.py, lines 87-182) ===== -/

/-- Modelled from the spec: topdown.py imports mask_time from util.py, which is not
under src/.  Spec section 4.3 (SequenceMasker): for each batch sample b, keep
(h_next[b], c_next[b]) when t < lengths[b] and keep (h_prev[b], c_prev[b])
otherwise, broadcasting the per-sample boolean across the hidden width. -/
def mask_time (t : ℕ) (length : ℕ → ℤ) (h_next c_next h_prev c_prev : Mat) :
    Mat × Mat :=
  (fun b j => if (t : ℤ) < length b then h_next b j else h_prev b j,
   fun b j => if (t : ℤ) < length b then c_next b j else c_prev b j)

/-- One layer slot of the TopDown stack (topdown.py lines 104-115): every layer but
the top is a TopDownLSTMCell, the top layer is the external vanilla LSTMCell. -/
inductive TDSlot where
  | topdown : TopDownLSTMCell → TDSlot
  | vanilla : LSTMCell → TDSlot

/-- The loop state of TopDownLSTM.forward: the stacked hidden array Ht, the stacked
cell array C and the collected output sequence of the top layer. -/
structure TDState where
  Ht : Stacked
  C : Stacked
  output : List Mat

/-- Default TDState used for out-of-range Option reads in statements. -/
def dummyTD : TDState := { Ht := fun _ => zeroMat, C := fun _ => zeroMat, output := [] }

/-- The raw cell invocation at position (t, l) of the loop of TopDownLSTM.forward
(topdown.py lines 151-170), before masking: layer 0 takes the raw sequence input as
bottom input and Ht[1] as top input; layers strictly between 0 and num_layers - 1
take dropout(Ht[l-1]) as bottom and dropout(Ht[l+1]) as top; the top layer is the
vanilla cell on dropout(Ht[l-1]).  Calling a slot of the wrong variant would pass
unknown keyword arguments in Python and raise TypeError, modelled as none. -/
def tdRawOutput (sigma tau : ℚ → ℚ) (dropout : Mat → Mat) (slots : List TDSlot)
    (num_layers : ℕ) (input_ : ℕ → Mat) (t : ℕ) (st : TDState) (l : ℕ) :
    Option (Mat × Mat) :=
  match slots.get? l with
  | none => none
  | some slot =>
    let hx := (st.Ht l, st.C l)
    if l = 0 then
      match slot with
      | TDSlot.topdown cell => cell.forward sigma tau (input_ t) (st.Ht 1) hx
      | TDSlot.vanilla _ => none
    else if l < num_layers - 1 then
      match slot with
      | TDSlot.topdown cell =>
          cell.forward sigma tau (dropout (st.Ht (l - 1))) (dropout (st.Ht (l + 1))) hx
      | TDSlot.vanilla _ => none
    else
      match slot with
      | TDSlot.vanilla cell => cell.forward sigma tau (dropout (st.Ht (l - 1))) hx
      | TDSlot.topdown _ => none

/-- One full (t, l) iteration of the loop of TopDownLSTM.forward (topdown.py lines
149-178): run the cell, mask the result against the previous state of slot l,
append the masked hidden state to the output when l is the top layer, and commit
the masked pair by cloning the arrays and overwriting slot l with
old * 0 + new (lines 172-178). -/
def tdInner (sigma tau : ℚ → ℚ) (dropout : Mat → Mat) (slots : List TDSlot)
    (num_layers : ℕ) (length : ℕ → ℤ) (input_ : ℕ → Mat) (t : ℕ)
    (st : TDState) (l : ℕ) : Option TDState :=
  match tdRawOutput sigma tau dropout slots num_layers input_ t st l with
  | none => none
  | some hc =>
    let m := mask_time t length hc.1 hc.2 (st.Ht l) (st.C l)
    let h_next := m.1
    let c_next := m.2
    some { Ht := fun k => if k = l then (fun b j => st.Ht l b j * 0 + h_next b j)
             else st.Ht k,
           C := fun k => if k = l then (fun b j => st.C l b j * 0 + c_next b j)
             else st.C k,
           output := if l = 0 then st.output
             else if l < num_layers - 1 then st.output
             else st.output ++ [h_next] }

/-- The state reached within timestep t after the first l layers of the inner layer
loop of TopDownLSTM.forward have run (layers 0, ..., l-1 in order). -/
def tdLayers (sigma tau : ℚ → ℚ) (dropout : Mat → Mat) (slots : List TDSlot)
    (num_layers : ℕ) (length : ℕ → ℤ) (input_ : ℕ → Mat) (t : ℕ)
    (st : TDState) : ℕ → Option TDState
  | 0 => some st
  | l + 1 => (tdLayers sigma tau dropout slots num_layers length input_ t st l).bind
      (fun s => tdInner sigma tau dropout slots num_layers length input_ t s l)

/-- One full timestep of TopDownLSTM.forward: all num_layers layers advance in
bottom-to-top order. -/
def tdTimestep (sigma tau : ℚ → ℚ) (dropout : Mat → Mat) (slots : List TDSlot)
    (num_layers : ℕ) (length : ℕ → ℤ) (input_ : ℕ → Mat) (st : TDState) (t : ℕ) :
    Option TDState :=
  tdLayers sigma tau dropout slots num_layers length input_ t st num_layers

/-- The loop state of TopDownLSTM.forward after its first t full timesteps. -/
def tdStateAfter (sigma tau : ℚ → ℚ) (dropout : Mat → Mat) (slots : List TDSlot)
    (num_layers : ℕ) (length : ℕ → ℤ) (input_ : ℕ → Mat) (init : TDState) :
    ℕ → Option TDState
  | 0 => some init
  | t + 1 => (tdStateAfter sigma tau dropout slots num_layers length input_ init t).bind
      (fun st => tdTimestep sigma tau dropout slots num_layers length input_ st t)

/-- The TopDownLSTM module (topdown.py lines 87-125). -/
structure TopDownLSTM where
  input_size : ℕ
  hidden_size : ℕ
  num_layers : ℕ
  slots : List TDSlot

/-- TopDownLSTM constructor (topdown.py lines 91-117): the assertion num_layers >= 2
fails with AssertionError otherwise, modelled as none; layers 0 to num_layers - 2
are TopDownLSTMCells (layer 0 with width input_size, the rest with width
hidden_size) and layer num_layers - 1 is the external vanilla LSTMCell.  mkCell and
mkTop model the externally initialised cells built for a given layer input size. -/
def TopDownLSTM.init (input_size hidden_size num_layers : ℕ)
    (mkCell : ℕ → TopDownLSTMCell) (mkTop : LSTMCell) : Option TopDownLSTM :=
  if 2 ≤ num_layers then
    some { input_size := input_size, hidden_size := hidden_size,
           num_layers := num_layers,
           slots := (List.range (num_layers - 1)).map
               (fun layer => TDSlot.topdown
                 (mkCell (if layer = 0 then input_size else hidden_size)))
             ++ [TDSlot.vanilla mkTop] }
  else none

/-- TopDownLSTM.forward (topdown.py lines 128-182) on time-major input.  A missing
length argument defaults to max_time for every sample (line 133).  When hx is
omitted, lines 139-141 build zero arrays but line 143 then unconditionally runs
Ht, C = hx, which unpacks None and raises TypeError; this is modelled as none. -/
def TopDownLSTM.forward (sigma tau : ℚ → ℚ) (dropout : Mat → Mat) (m : TopDownLSTM)
    (input_ : ℕ → Mat) (max_time : ℕ) (hx : Option (Stacked × Stacked))
    (length : Option (ℕ → ℤ)) : Option (List Mat × (Stacked × Stacked)) :=
  let len : ℕ → ℤ := match length with
    | none => fun _ => (max_time : ℤ)
    | some l => l
  match hx with
  | none => none
  | some hx0 =>
    match tdStateAfter sigma tau dropout m.slots m.num_layers len input_
        { Ht := hx0.1, C := hx0.2, output := [] } max_time with
    | none => none
    | some st => some (st.output, (st.Ht, st.C))

/- ===== Witness fixtures ===== -/

/-- Constant-one matrix used by concrete witnesses. -/
def oneMat : Mat := fun _ _ => 1

/-- Zero bias vector used by concrete witnesses. -/
def zeroVec : ℕ → ℚ := fun _ => 0

/-- Concrete RANCell with width 1 and zero bias, used by witnesses. -/
def wRANCell : RANCell := RANCell.init 1 1 true oneMat oneMat oneMat zeroVec

/-- Concrete TopDownLSTMCell with width 1 and zero bias, used by witnesses. -/
def wTDCell : TopDownLSTMCell := TopDownLSTMCell.init 1 1 true oneMat oneMat oneMat zeroVec

/-- Concrete vanilla LSTMCell with width 1 and zero bias, used by witnesses. -/
def wLSTMCell : LSTMCell :=
  { input_size := 1, hidden_size := 1, weight_ih := oneMat, weight_hh := oneMat,
    bias := some zeroVec }

/-- Default accumulator used for Option reads in statements. -/
def dummyAcc : List Mat × (Mat × Mat) := ([], (zeroMat, zeroMat))

/-- Length vector with every entry zero, used by witnesses. -/
def wLenZero : ℕ → ℤ := fun _ => 0

/-- Length vector with every entry one, used by witnesses. -/
def wLenOne : ℕ → ℤ := fun _ => 1

/-- Constant input sequence used by witnesses. -/
def wInput : ℕ → Mat := fun _ => oneMat

/-- Concrete one-layer RAN module used by witnesses. -/
def wRAN : RAN := RAN.init 1 1 1 (fun _ => wRANCell)

/-- Concrete two-layer slot list used by witnesses. -/
def wSlots : List TDSlot := [TDSlot.topdown wTDCell, TDSlot.vanilla wLSTMCell]

/-- Concrete TopDown state with all-one arrays used by witnesses. -/
def wTD0 : TDState := { Ht := fun _ => oneMat, C := fun _ => oneMat, output := [] }

/-- Concrete two-layer TopDownLSTM module used by witnesses. -/
def wTDLSTM : TopDownLSTM :=
  { input_size := 1, hidden_size := 1, num_layers := 2, slots := wSlots }

/-- C1: RANCell.forward computes a single affine projection gates =
input * W_ih + h_prev * W_hh + bias of width 2 * hidden_size, split into (f, i)
each of width hidden_size, a content projection content = input * W_ic with no bias
and no nonlinearity, and returns c_next = sigmoid(i) * content + sigmoid(f) *
tanh(c_prev) and h_next = tanh(c_next), for every input batch and previous state. -/
theorem rancell_forward_matches_spec (sigma tau : ℚ → ℚ) (cell : RANCell)
    (bias : ℕ → ℚ) (input_ h_0 c_0 : Mat) (hb : cell.bias_h = some bias) :
    RANCell.forward sigma tau cell input_ (h_0, c_0) =
      some (fun b j => tau (ranSpecCNext sigma tau cell bias input_ h_0 c_0 b j),
            ranSpecCNext sigma tau cell bias input_ h_0 c_0) := by
  have e1 : ∀ b j, splitChunk cell.hidden_size 1
      (fun b j => addmm cell.hidden_size (fun _ j => bias j) h_0 cell.weight_hh b j
        + mm cell.input_size input_ cell.weight_ih b j) b j
      = ranSpecGate cell bias input_ h_0 cell.hidden_size b j := by
    intro b j
    simp only [splitChunk, addmm, mm, ranSpecGate, one_mul]
    ring
  have e2 : ∀ b j, splitChunk cell.hidden_size 0
      (fun b j => addmm cell.hidden_size (fun _ j => bias j) h_0 cell.weight_hh b j
        + mm cell.input_size input_ cell.weight_ih b j) b j
      = ranSpecGate cell bias input_ h_0 0 b j := by
    intro b j
    simp only [splitChunk, addmm, mm, ranSpecGate, zero_mul, zero_add]
    ring
  have hcp : ∀ b j, sigma
        (splitChunk cell.hidden_size 1
          (fun b j => addmm cell.hidden_size (fun _ j => bias j) h_0 cell.weight_hh b j
            + mm cell.input_size input_ cell.weight_ih b j) b j)
        * mm cell.input_size input_ cell.weight_ic b j
      + sigma
        (splitChunk cell.hidden_size 0
          (fun b j => addmm cell.hidden_size (fun _ j => bias j) h_0 cell.weight_hh b j
            + mm cell.input_size input_ cell.weight_ih b j) b j)
        * tau (c_0 b j) = ranSpecCNext sigma tau cell bias input_ h_0 c_0 b j := by
    intro b j
    rw [e1 b j, e2 b j]
    rfl
  simp only [RANCell.forward, hb, RANCell.run, hcp]

/-- Witness for C1 at a concrete cell, input and state. -/
theorem rancell_forward_matches_spec_witness :
    wRANCell.bias_h = some zeroVec ∧
    RANCell.forward id id wRANCell oneMat (oneMat, oneMat) =
      some (fun b j => id (ranSpecCNext id id wRANCell zeroVec oneMat oneMat oneMat b j),
            ranSpecCNext id id wRANCell zeroVec oneMat oneMat oneMat) :=
  ⟨rfl, rancell_forward_matches_spec id id wRANCell zeroVec oneMat oneMat oneMat rfl⟩

/-- C2: TopDownLSTMCell.forward computes gates = input_bottom * W_bh +
input_top * W_th + h_prev * W_hh + bias of width 4 * hidden_size, split in order
into (f, i, o, g) each of width hidden_size, and returns c_next = sigmoid(f) *
c_prev + sigmoid(i) * tanh(g) and h_next = sigmoid(o) * tanh(c_next), for every
bottom input, top input and previous state. -/
theorem tdcell_forward_matches_spec (sigma tau : ℚ → ℚ) (cell : TopDownLSTMCell)
    (bias : ℕ → ℚ) (input_bottom input_top h_0 c_0 : Mat)
    (hb : cell.bias = some bias) :
    TopDownLSTMCell.forward sigma tau cell input_bottom input_top (h_0, c_0) =
      some (fun b j =>
              sigma (tdSpecGate cell bias input_bottom input_top h_0
                  (2 * cell.hidden_size) b j)
                * tau (tdSpecCNext sigma tau cell bias input_bottom input_top h_0 c_0 b j),
            tdSpecCNext sigma tau cell bias input_bottom input_top h_0 c_0) := by
  have egate : ∀ p b j, splitChunk cell.hidden_size p
      (fun b j => addmm cell.hidden_size (fun _ j => bias j) h_0 cell.weight_hh b j
        + mm cell.input_size input_bottom cell.weight_bh b j
        + mm cell.hidden_size input_top cell.weight_th b j) b j
      = tdSpecGate cell bias input_bottom input_top h_0 (p * cell.hidden_size) b j := by
    intro p b j
    simp only [splitChunk, addmm, mm, tdSpecGate]
    ring
  have e0 : ∀ b j, splitChunk cell.hidden_size 0
      (fun b j => addmm cell.hidden_size (fun _ j => bias j) h_0 cell.weight_hh b j
        + mm cell.input_size input_bottom cell.weight_bh b j
        + mm cell.hidden_size input_top cell.weight_th b j) b j
      = tdSpecGate cell bias input_bottom input_top h_0 0 b j := by
    intro b j; rw [egate 0 b j, zero_mul]
  have e1 : ∀ b j, splitChunk cell.hidden_size 1
      (fun b j => addmm cell.hidden_size (fun _ j => bias j) h_0 cell.weight_hh b j
        + mm cell.input_size input_bottom cell.weight_bh b j
        + mm cell.hidden_size input_top cell.weight_th b j) b j
      = tdSpecGate cell bias input_bottom input_top h_0 cell.hidden_size b j := by
    intro b j; rw [egate 1 b j, one_mul]
  have hcp : ∀ b j, sigma
        (splitChunk cell.hidden_size 0
          (fun b j => addmm cell.hidden_size (fun _ j => bias j) h_0 cell.weight_hh b j
            + mm cell.input_size input_bottom cell.weight_bh b j
            + mm cell.hidden_size input_top cell.weight_th b j) b j) * c_0 b j
      + sigma
        (splitChunk cell.hidden_size 1
          (fun b j => addmm cell.hidden_size (fun _ j => bias j) h_0 cell.weight_hh b j
            + mm cell.input_size input_bottom cell.weight_bh b j
            + mm cell.hidden_size input_top cell.weight_th b j) b j)
        * tau (splitChunk cell.hidden_size 3
          (fun b j => addmm cell.hidden_size (fun _ j => bias j) h_0 cell.weight_hh b j
            + mm cell.input_size input_bottom cell.weight_bh b j
            + mm cell.hidden_size input_top cell.weight_th b j) b j)
      = tdSpecCNext sigma tau cell bias input_bottom input_top h_0 c_0 b j := by
    intro b j
    rw [e0 b j, e1 b j, egate 3 b j]
    rfl
  have hop : ∀ b j, splitChunk cell.hidden_size 2
      (fun b j => addmm cell.hidden_size (fun _ j => bias j) h_0 cell.weight_hh b j
        + mm cell.input_size input_bottom cell.weight_bh b j
        + mm cell.hidden_size input_top cell.weight_th b j) b j
      = tdSpecGate cell bias input_bottom input_top h_0 (2 * cell.hidden_size) b j :=
    fun b j => egate 2 b j
  simp only [TopDownLSTMCell.forward, hb, TopDownLSTMCell.run, hcp, hop]

/-- Witness for C2 at a concrete cell, inputs and state. -/
theorem tdcell_forward_matches_spec_witness :
    wTDCell.bias = some zeroVec ∧
    TopDownLSTMCell.forward id id wTDCell oneMat oneMat (oneMat, oneMat) =
      some (fun b j =>
              id (tdSpecGate wTDCell zeroVec oneMat oneMat oneMat
                  (2 * wTDCell.hidden_size) b j)
                * id (tdSpecCNext id id wTDCell zeroVec oneMat oneMat oneMat oneMat b j),
            tdSpecCNext id id wTDCell zeroVec oneMat oneMat oneMat oneMat) :=
  ⟨rfl, tdcell_forward_matches_spec id id wTDCell zeroVec oneMat oneMat oneMat oneMat rfl⟩

/-- C6: the claim states that with use_bias = False both cells return normally with
no additive bias term; in the code both forward bodies read the bias attribute
unconditionally (ran.py line 68 reads self.bias_h, which is never created when
use_bias = False since the constructor registers the None parameter under the name
bias; topdown.py line 71 calls self.bias.unsqueeze(0) on None), so both calls
raise AttributeError instead of returning.  This theorem evaluates both cells at
the failing input. -/
theorem cells_with_use_bias_false_raise :
    RANCell.forward id id (RANCell.init 1 1 false oneMat oneMat oneMat zeroVec)
        oneMat (oneMat, oneMat) = none ∧
    TopDownLSTMCell.forward id id
        (TopDownLSTMCell.init 1 1 false oneMat oneMat oneMat zeroVec)
        oneMat oneMat (oneMat, oneMat) = none :=
  ⟨rfl, rfl⟩

/- ===== Loop lemmas for the RAN driver ===== -/

/-- Once a sample is past its length, one masked step leaves its state rows
unchanged: the cell output is computed but discarded for that sample. -/
theorem ranStep_frozen (sigma tau : ℚ → ℚ) (cell : RANCell) (length : ℕ → ℤ)
    (input_ : ℕ → Mat) (acc acc' : List Mat × (Mat × Mat)) (time : ℕ) (b : ℕ)
    (hb : length b ≤ (time : ℤ))
    (h : ranStep sigma tau cell length input_ acc time = some acc') :
    (∀ j, acc'.2.1 b j = acc.2.1 b j) ∧ (∀ j, acc'.2.2 b j = acc.2.2 b j) := by
  unfold ranStep at h
  cases hf : cell.forward sigma tau (input_ time) acc.2 with
  | none => rw [hf] at h; exact absurd h (by simp)
  | some hc =>
    rw [hf] at h
    simp only [Option.some.injEq] at h
    subst h
    have hmask : ∀ j, ranMask length time b j = 0 := by
      intro j
      simp only [ranMask, if_neg (not_lt.mpr hb)]
    constructor <;> intro j <;> simp only [hmask j] <;> ring

/-- Success of the time loop at s + d implies success at s. -/
theorem ranGo_isSome_add (sigma tau : ℚ → ℚ) (cell : RANCell) (length : ℕ → ℤ)
    (input_ : ℕ → Mat) (hx : Mat × Mat) (s d : ℕ)
    (h : (ranGo sigma tau cell length input_ hx (s + d)).isSome = true) :
    (ranGo sigma tau cell length input_ hx s).isSome = true := by
  induction d with
  | zero => exact h
  | succ d ih =>
    apply ih
    rw [show s + (d + 1) = (s + d) + 1 by omega] at h
    simp only [ranGo] at h
    cases hg : ranGo sigma tau cell length input_ hx (s + d) with
    | none => rw [hg] at h; simp at h
    | some acc => simp [hg]

/-- Success of a longer prefix of the time loop implies success of a shorter one. -/
theorem ranGo_isSome_le (sigma tau : ℚ → ℚ) (cell : RANCell) (length : ℕ → ℤ)
    (input_ : ℕ → Mat) (hx : Mat × Mat) (s u : ℕ) (hsu : s ≤ u)
    (h : (ranGo sigma tau cell length input_ hx u).isSome = true) :
    (ranGo sigma tau cell length input_ hx s).isSome = true := by
  obtain ⟨d, rfl⟩ := Nat.le.dest hsu
  exact ranGo_isSome_add sigma tau cell length input_ hx s d h

/-- From any time t0 past the length of sample b onward, the state rows of sample b
never change again. -/
theorem ranGo_frozen_chain (sigma tau : ℚ → ℚ) (cell : RANCell) (length : ℕ → ℤ)
    (input_ : ℕ → Mat) (hx : Mat × Mat) (b t0 : ℕ)
    (hb : length b ≤ (t0 : ℤ)) :
    ∀ d acc0 acc, ranGo sigma tau cell length input_ hx t0 = some acc0 →
      ranGo sigma tau cell length input_ hx (t0 + d) = some acc →
      (∀ j, acc.2.1 b j = acc0.2.1 b j) ∧ (∀ j, acc.2.2 b j = acc0.2.2 b j) := by
  intro d
  induction d with
  | zero =>
    intro acc0 acc h0 h
    rw [Nat.add_zero, h0] at h
    simp only [Option.some.injEq] at h
    subst h
    exact ⟨fun _ => rfl, fun _ => rfl⟩
  | succ d ih =>
    intro acc0 acc h0 h
    rw [show t0 + (d + 1) = (t0 + d) + 1 by omega] at h
    simp only [ranGo] at h
    cases hg : ranGo sigma tau cell length input_ hx (t0 + d) with
    | none => rw [hg] at h; simp at h
    | some mid =>
      rw [hg] at h
      simp only [Option.some_bind] at h
      have hbd : length b ≤ ((t0 + d : ℕ) : ℤ) := by
        have h2 : (t0 : ℤ) ≤ ((t0 + d : ℕ) : ℤ) := by omega
        omega
      have hstep := ranStep_frozen sigma tau cell length input_ mid acc (t0 + d) b hbd h
      have hmid := ih acc0 mid h0 hg
      exact ⟨fun j => (hstep.1 j).trans (hmid.1 j), fun j => (hstep.2 j).trans (hmid.2 j)⟩

/-- Invariant of the time loop for a sample whose length entry is at most zero: the
mask is zero at every step, so the state rows of that sample never leave the
initial state and every appended output row equals the initial hidden row. -/
theorem ranGo_zero_length_inv (sigma tau : ℚ → ℚ) (cell : RANCell) (length : ℕ → ℤ)
    (input_ : ℕ → Mat) (hx : Mat × Mat) (b : ℕ) (hb : length b ≤ 0) :
    ∀ t acc, ranGo sigma tau cell length input_ hx t = some acc →
      acc.1.length = t
      ∧ (∀ s, s < t → ∀ j, (acc.1.getD s zeroMat) b j = hx.1 b j)
      ∧ (∀ j, acc.2.1 b j = hx.1 b j) ∧ (∀ j, acc.2.2 b j = hx.2 b j) := by
  intro t
  induction t with
  | zero =>
    intro acc h
    simp only [ranGo, Option.some.injEq] at h
    subst h
    exact ⟨rfl, fun s hs => absurd hs (by omega), fun _ => rfl, fun _ => rfl⟩
  | succ t ih =>
    intro acc h
    simp only [ranGo] at h
    cases hg : ranGo sigma tau cell length input_ hx t with
    | none => rw [hg] at h; simp at h
    | some mid =>
      rw [hg] at h
      simp only [Option.some_bind] at h
      obtain ⟨hlen, hout, hh, hc⟩ := ih mid hg
      have hbt : length b ≤ (t : ℤ) := le_trans hb (by omega)
      have hfroz := ranStep_frozen sigma tau cell length input_ mid acc t b hbt h
      unfold ranStep at h
      cases hf : cell.forward sigma tau (input_ t) mid.2 with
      | none => rw [hf] at h; exact absurd h (by simp)
      | some hcpair =>
        rw [hf] at h
        simp only [Option.some.injEq] at h
        subst h
        refine ⟨by simpa using hlen, ?_, fun j => (hfroz.1 j).trans (hh j),
          fun j => (hfroz.2 j).trans (hc j)⟩
        intro s hs j
        dsimp only
        rcases Nat.lt_or_ge s mid.1.length with hlt | hge
        · rw [List.getD_append _ _ _ _ hlt]
          exact hout s (by omega) j
        · have hseq : s = mid.1.length := by omega
          subst hseq
          rw [List.getD_append_right _ _ _ _ (le_refl _)]
          simp only [Nat.sub_self, List.getD_cons_zero]
          have hmask : ranMask length t b j = 0 := by
            simp only [ranMask, if_neg (not_lt.mpr hbt)]
          simp only [hmask]
          calc hcpair.1 b j * 0 + mid.2.1 b j * (1 - 0) = mid.2.1 b j := by ring
            _ = hx.1 b j := hh j

/-- C10: in the RAN driver, for a batch sample b whose length entry is zero or
negative, the mask is zero at every timestep, every entry of the returned output
sequence for sample b equals the initial hidden state row of b, and the returned
final state rows for sample b equal the initial rows: the freeze degenerates to
freezing at the initial state. -/
theorem ran_zero_length_freezes_to_initial (sigma tau : ℚ → ℚ) (cell : RANCell)
    (length : ℕ → ℤ) (input_ : ℕ → Mat) (hx : Mat × Mat) (max_time b : ℕ)
    (hb : length b ≤ 0)
    (hs : (RAN._forward_rnn sigma tau cell input_ hx length max_time).isSome = true) :
    (∀ t j, ranMask length t b j = 0)
    ∧ (∀ t, t < max_time → ∀ j,
        (((RAN._forward_rnn sigma tau cell input_ hx length max_time).getD
            dummyAcc).1.getD t zeroMat) b j = hx.1 b j)
    ∧ (∀ j, ((RAN._forward_rnn sigma tau cell input_ hx length max_time).getD
        dummyAcc).2.1 b j = hx.1 b j)
    ∧ (∀ j, ((RAN._forward_rnn sigma tau cell input_ hx length max_time).getD
        dummyAcc).2.2 b j = hx.2 b j) := by
  obtain ⟨acc, hacc⟩ := Option.isSome_iff_exists.mp hs
  have hinv := ranGo_zero_length_inv sigma tau cell length input_ hx b hb max_time acc hacc
  obtain ⟨hlen, hout, hh, hc⟩ := hinv
  refine ⟨?_, ?_, ?_, ?_⟩
  · intro t j
    have hnlt : ¬ ((t : ℤ) < length b) := by omega
    simp only [ranMask, if_neg hnlt]
  · intro t ht j
    simp only [hacc, Option.getD_some]
    exact hout t ht j
  · intro j
    simp only [hacc, Option.getD_some]
    exact hh j
  · intro j
    simp only [hacc, Option.getD_some]
    exact hc j

/-- Witness for C10 at a concrete cell, zero length vector and one unroll step. -/
theorem ran_zero_length_freezes_to_initial_witness :
    wLenZero 0 ≤ 0
    ∧ (RAN._forward_rnn id id wRANCell wInput (oneMat, oneMat) wLenZero 1).isSome = true
    ∧ ranMask wLenZero 0 0 0 = 0
    ∧ (((RAN._forward_rnn id id wRANCell wInput (oneMat, oneMat) wLenZero 1).getD
        dummyAcc).1.getD 0 zeroMat) 0 0 = oneMat 0 0
    ∧ ((RAN._forward_rnn id id wRANCell wInput (oneMat, oneMat) wLenZero 1).getD
        dummyAcc).2.1 0 0 = oneMat 0 0
    ∧ ((RAN._forward_rnn id id wRANCell wInput (oneMat, oneMat) wLenZero 1).getD
        dummyAcc).2.2 0 0 = oneMat 0 0 := by
  refine ⟨by decide, by decide, ?_, ?_, ?_, ?_⟩
  · exact (ran_zero_length_freezes_to_initial id id wRANCell wLenZero wInput
      (oneMat, oneMat) 1 0 (by decide) (by decide)).1 0 0
  · exact (ran_zero_length_freezes_to_initial id id wRANCell wLenZero wInput
      (oneMat, oneMat) 1 0 (by decide) (by decide)).2.1 0 (by decide) 0
  · exact (ran_zero_length_freezes_to_initial id id wRANCell wLenZero wInput
      (oneMat, oneMat) 1 0 (by decide) (by decide)).2.2.1 0
  · exact (ran_zero_length_freezes_to_initial id id wRANCell wLenZero wInput
      (oneMat, oneMat) 1 0 (by decide) (by decide)).2.2.2 0

/-- When every sample is still within its length at time t, the masked step equals
the unmasked step of the spec. -/
theorem ranStep_eq_unmasked (sigma tau : ℚ → ℚ) (cell : RANCell) (length : ℕ → ℤ)
    (input_ : ℕ → Mat) (t : ℕ) (hmask : ∀ b, (t : ℤ) < length b)
    (acc : List Mat × (Mat × Mat)) :
    ranStep sigma tau cell length input_ acc t
      = ranUnmaskedStep sigma tau cell input_ acc t := by
  unfold ranStep ranUnmaskedStep
  cases hf : cell.forward sigma tau (input_ t) acc.2 with
  | none => rfl
  | some hc =>
    simp only [Option.some.injEq]
    have h1 : ∀ b j, ranMask length t b j = 1 := fun b j => by
      simp only [ranMask, if_pos (hmask b)]
    have hh : (fun b j => hc.1 b j * ranMask length t b j
        + acc.2.1 b j * (1 - ranMask length t b j)) = hc.1 := by
      funext b j; rw [h1 b j]; ring
    have hcc : (fun b j => hc.2 b j * ranMask length t b j
        + acc.2.2 b j * (1 - ranMask length t b j)) = hc.2 := by
      funext b j; rw [h1 b j]; ring
    rw [hh, hcc]

/-- With every length entry equal to max_time, every prefix of the masked loop
equals the corresponding prefix of the unmasked recurrence of the spec. -/
theorem ranGo_eq_unmasked (sigma tau : ℚ → ℚ) (cell : RANCell) (length : ℕ → ℤ)
    (input_ : ℕ → Mat) (hx : Mat × Mat) (max_time : ℕ)
    (hlen : ∀ b, length b = (max_time : ℤ)) :
    ∀ t, t ≤ max_time → ranGo sigma tau cell length input_ hx t
      = ranUnmaskedGo sigma tau cell input_ hx t := by
  intro t
  induction t with
  | zero => intro _; rfl
  | succ t ih =>
    intro ht
    simp only [ranGo, ranUnmaskedGo]
    rw [ih (by omega)]
    cases ranUnmaskedGo sigma tau cell input_ hx t with
    | none => rfl
    | some acc =>
      simp only [Option.some_bind]
      exact ranStep_eq_unmasked sigma tau cell length input_ t
        (fun b => by have hb := hlen b; omega) acc

/-- C8: when every entry of the length vector equals max_time, the RAN unroll
equals the unmasked recurrence of the spec (masking is a no-op), and the driver
with the length argument omitted behaves exactly as with the explicit length
vector that is max_time at every sample. -/
theorem ran_full_length_mask_is_noop (sigma tau : ℚ → ℚ) (cell : RANCell)
    (length : ℕ → ℤ) (input_ : ℕ → Mat) (hx : Mat × Mat) (max_time : ℕ)
    (hlen : ∀ b, length b = (max_time : ℤ)) :
    RAN._forward_rnn sigma tau cell input_ hx length max_time
      = ranUnmaskedGo sigma tau cell input_ hx max_time
    ∧ (∀ dropoutSeq m input0 hx0,
        RAN.forward sigma tau dropoutSeq m input0 max_time hx0 none
          = RAN.forward sigma tau dropoutSeq m input0 max_time hx0
              (some (fun _ => (max_time : ℤ)))) :=
  ⟨ranGo_eq_unmasked sigma tau cell length input_ hx max_time hlen max_time (le_refl _),
   fun _ _ _ _ => rfl⟩

/-- Witness for C8 at a concrete cell, full length vector and one unroll step. -/
theorem ran_full_length_mask_is_noop_witness :
    wLenOne 0 = ((1 : ℕ) : ℤ)
    ∧ RAN._forward_rnn id id wRANCell wInput (oneMat, oneMat) wLenOne 1
        = ranUnmaskedGo id id wRANCell wInput (oneMat, oneMat) 1
    ∧ RAN.forward id id (fun s => s) wRAN wInput 1 (some (fun _ => oneMat, fun _ => oneMat)) none
        = RAN.forward id id (fun s => s) wRAN wInput 1 (some (fun _ => oneMat, fun _ => oneMat))
            (some (fun _ => ((1 : ℕ) : ℤ))) := by
  refine ⟨by decide, ?_, ?_⟩
  · exact (ran_full_length_mask_is_noop id id wRANCell wLenOne wInput (oneMat, oneMat) 1
      (fun _ => rfl)).1
  · exact (ran_full_length_mask_is_noop id id wRANCell wLenOne wInput (oneMat, oneMat) 1
      (fun _ => rfl)).2 (fun s => s) wRAN wInput (some (fun _ => oneMat, fun _ => oneMat))

/- ===== Loop lemmas for the TopDown driver ===== -/

/-- Inversion of one (t, l) iteration: a successful tdInner call is exactly a
successful raw cell invocation followed by masking and the clone-and-overwrite
commit of slot l. -/
theorem tdInner_inv (sigma tau : ℚ → ℚ) (dropout : Mat → Mat) (slots : List TDSlot)
    (n : ℕ) (length : ℕ → ℤ) (input_ : ℕ → Mat) (t : ℕ) (st : TDState) (l : ℕ)
    (st' : TDState)
    (h : tdInner sigma tau dropout slots n length input_ t st l = some st') :
    ∃ hc, tdRawOutput sigma tau dropout slots n input_ t st l = some hc
      ∧ st' = { Ht := fun k => if k = l then
                  (fun b j => st.Ht l b j * 0
                    + (mask_time t length hc.1 hc.2 (st.Ht l) (st.C l)).1 b j)
                  else st.Ht k,
                C := fun k => if k = l then
                  (fun b j => st.C l b j * 0
                    + (mask_time t length hc.1 hc.2 (st.Ht l) (st.C l)).2 b j)
                  else st.C k,
                output := if l = 0 then st.output
                  else if l < n - 1 then st.output
                  else st.output ++ [(mask_time t length hc.1 hc.2 (st.Ht l) (st.C l)).1] } := by
  unfold tdInner at h
  cases hr : tdRawOutput sigma tau dropout slots n input_ t st l with
  | none => rw [hr] at h; exact absurd h (by simp)
  | some hc =>
    rw [hr] at h
    simp only [Option.some.injEq] at h
    exact ⟨hc, rfl, h.symm⟩

/-- Once sample b is past its length, one (t, l) iteration leaves its rows in every
layer slot unchanged. -/
theorem tdInner_frozen (sigma tau : ℚ → ℚ) (dropout : Mat → Mat) (slots : List TDSlot)
    (n : ℕ) (length : ℕ → ℤ) (input_ : ℕ → Mat) (t : ℕ) (st : TDState) (l : ℕ)
    (st' : TDState) (b : ℕ) (hb : length b ≤ (t : ℤ))
    (h : tdInner sigma tau dropout slots n length input_ t st l = some st') :
    ∀ k j, st'.Ht k b j = st.Ht k b j ∧ st'.C k b j = st.C k b j := by
  obtain ⟨hc, hr, rfl⟩ := tdInner_inv sigma tau dropout slots n length input_ t st l st' h
  intro k j
  dsimp only
  constructor
  · split
    · next hk =>
        subst hk
        simp only [mask_time]
        rw [if_neg (not_lt.mpr hb)]
        ring
    · rfl
  · split
    · next hk =>
        subst hk
        simp only [mask_time]
        rw [if_neg (not_lt.mpr hb)]
        ring
    · rfl

/-- Once sample b is past its length, a run of the inner layer loop leaves its rows
in every layer slot unchanged. -/
theorem tdLayers_frozen (sigma tau : ℚ → ℚ) (dropout : Mat → Mat) (slots : List TDSlot)
    (n : ℕ) (length : ℕ → ℤ) (input_ : ℕ → Mat) (t : ℕ) (b : ℕ)
    (hb : length b ≤ (t : ℤ)) :
    ∀ L st st', tdLayers sigma tau dropout slots n length input_ t st L = some st' →
      ∀ k j, st'.Ht k b j = st.Ht k b j ∧ st'.C k b j = st.C k b j := by
  intro L
  induction L with
  | zero =>
    intro st st' h
    simp only [tdLayers, Option.some.injEq] at h
    subst h
    exact fun k j => ⟨rfl, rfl⟩
  | succ L ih =>
    intro st st' h
    simp only [tdLayers] at h
    cases hg : tdLayers sigma tau dropout slots n length input_ t st L with
    | none => rw [hg] at h; simp at h
    | some mid =>
      rw [hg] at h
      simp only [Option.some_bind] at h
      have hmid := ih st mid hg
      have hlast := tdInner_frozen sigma tau dropout slots n length input_ t mid L st' b hb h
      exact fun k j => ⟨(hlast k j).1.trans (hmid k j).1, (hlast k j).2.trans (hmid k j).2⟩

/-- Success of the timestep loop at t + d implies success at t. -/
theorem tdStateAfter_isSome_add (sigma tau : ℚ → ℚ) (dropout : Mat → Mat)
    (slots : List TDSlot) (n : ℕ) (length : ℕ → ℤ) (input_ : ℕ → Mat)
    (init : TDState) (s d : ℕ)
    (h : (tdStateAfter sigma tau dropout slots n length input_ init (s + d)).isSome = true) :
    (tdStateAfter sigma tau dropout slots n length input_ init s).isSome = true := by
  induction d with
  | zero => exact h
  | succ d ih =>
    apply ih
    rw [show s + (d + 1) = (s + d) + 1 by omega] at h
    simp only [tdStateAfter] at h
    cases hg : tdStateAfter sigma tau dropout slots n length input_ init (s + d) with
    | none => rw [hg] at h; simp at h
    | some st => simp [hg]

/-- Success of the timestep loop at u implies success at every s below u. -/
theorem tdStateAfter_isSome_le (sigma tau : ℚ → ℚ) (dropout : Mat → Mat)
    (slots : List TDSlot) (n : ℕ) (length : ℕ → ℤ) (input_ : ℕ → Mat)
    (init : TDState) (s u : ℕ) (hsu : s ≤ u)
    (h : (tdStateAfter sigma tau dropout slots n length input_ init u).isSome = true) :
    (tdStateAfter sigma tau dropout slots n length input_ init s).isSome = true := by
  obtain ⟨d, rfl⟩ := Nat.le.dest hsu
  exact tdStateAfter_isSome_add sigma tau dropout slots n length input_ init s d h

/-- From any time t0 past the length of sample b onward, the rows of sample b in
every layer slot never change again across full timesteps. -/
theorem tdStateAfter_frozen_chain (sigma tau : ℚ → ℚ) (dropout : Mat → Mat)
    (slots : List TDSlot) (n : ℕ) (length : ℕ → ℤ) (input_ : ℕ → Mat)
    (init : TDState) (b t0 : ℕ) (hb : length b ≤ (t0 : ℤ)) :
    ∀ d st0 st, tdStateAfter sigma tau dropout slots n length input_ init t0 = some st0 →
      tdStateAfter sigma tau dropout slots n length input_ init (t0 + d) = some st →
      ∀ k j, st.Ht k b j = st0.Ht k b j ∧ st.C k b j = st0.C k b j := by
  intro d
  induction d with
  | zero =>
    intro st0 st h0 h
    rw [Nat.add_zero, h0] at h
    simp only [Option.some.injEq] at h
    subst h
    exact fun k j => ⟨rfl, rfl⟩
  | succ d ih =>
    intro st0 st h0 h
    rw [show t0 + (d + 1) = (t0 + d) + 1 by omega] at h
    simp only [tdStateAfter] at h
    cases hg : tdStateAfter sigma tau dropout slots n length input_ init (t0 + d) with
    | none => rw [hg] at h; simp at h
    | some mid =>
      rw [hg] at h
      simp only [Option.some_bind] at h
      have hbd : length b ≤ ((t0 + d : ℕ) : ℤ) := by omega
      have hstep := tdLayers_frozen sigma tau dropout slots n length input_ (t0 + d) b hbd
        n mid st h
      have hmid := ih st0 mid h0 hg
      exact fun k j => ⟨(hstep k j).1.trans (hmid k j).1, (hstep k j).2.trans (hmid k j).2⟩

/-- C9: the state commit performed after each (t, l) cell invocation changes only
layer slot l of the stacked state arrays: the new Ht and C agree with the previous
arrays at every layer index k different from l, and slot l holds exactly the masked
(h_next, c_next) computed from the raw cell output of this invocation. -/
theorem td_commit_touches_only_its_slot (sigma tau : ℚ → ℚ) (dropout : Mat → Mat)
    (slots : List TDSlot) (n : ℕ) (length : ℕ → ℤ) (input_ : ℕ → Mat) (t : ℕ)
    (st : TDState) (l : ℕ)
    (hs : (tdInner sigma tau dropout slots n length input_ t st l).isSome = true) :
    (∀ k, k ≠ l →
      ((tdInner sigma tau dropout slots n length input_ t st l).getD dummyTD).Ht k
          = st.Ht k
      ∧ ((tdInner sigma tau dropout slots n length input_ t st l).getD dummyTD).C k
          = st.C k)
    ∧ ∃ hc, tdRawOutput sigma tau dropout slots n input_ t st l = some hc
      ∧ ((tdInner sigma tau dropout slots n length input_ t st l).getD dummyTD).Ht l
          = (mask_time t length hc.1 hc.2 (st.Ht l) (st.C l)).1
      ∧ ((tdInner sigma tau dropout slots n length input_ t st l).getD dummyTD).C l
          = (mask_time t length hc.1 hc.2 (st.Ht l) (st.C l)).2 := by
  obtain ⟨st', hst⟩ := Option.isSome_iff_exists.mp hs
  obtain ⟨hc, hr, hdef⟩ := tdInner_inv sigma tau dropout slots n length input_ t st l st' hst
  subst hdef
  simp only [hst, Option.getD_some]
  refine ⟨?_, hc, hr, ?_, ?_⟩
  · intro k hk
    constructor
    · show (if k = l then _ else st.Ht k) = st.Ht k
      rw [if_neg hk]
    · show (if k = l then _ else st.C k) = st.C k
      rw [if_neg hk]
  · funext b j
    show (if True then (fun b j => st.Ht l b j * 0
        + (mask_time t length hc.1 hc.2 (st.Ht l) (st.C l)).1 b j) else st.Ht l) b j = _
    rw [if_pos trivial]
    ring
  · funext b j
    show (if True then (fun b j => st.C l b j * 0
        + (mask_time t length hc.1 hc.2 (st.Ht l) (st.C l)).2 b j) else st.C l) b j = _
    rw [if_pos trivial]
    ring

/-- Witness for C9 at a concrete two-layer stack and state. -/
theorem td_commit_touches_only_its_slot_witness :
    (tdInner id id (fun v => v) wSlots 2 wLenOne wInput 0 wTD0 0).isSome = true
    ∧ (1 : ℕ) ≠ 0
    ∧ ((tdInner id id (fun v => v) wSlots 2 wLenOne wInput 0 wTD0 0).getD dummyTD).Ht 1
        = wTD0.Ht 1
    ∧ ((tdInner id id (fun v => v) wSlots 2 wLenOne wInput 0 wTD0 0).getD dummyTD).C 1
        = wTD0.C 1 := by
  refine ⟨by decide, by decide, ?_, ?_⟩
  · exact ((td_commit_touches_only_its_slot id id (fun v => v) wSlots 2 wLenOne wInput 0
      wTD0 0 (by decide)).1 1 (by decide)).1
  · exact ((td_commit_touches_only_its_slot id id (fun v => v) wSlots 2 wLenOne wInput 0
      wTD0 0 (by decide)).1 1 (by decide)).2

/-- C3: in both drivers, for every sample b with lengths[b] at least 1 and every
timestep t with lengths[b] <= t < max_time, the per-sample state rows held after
step t equal the rows held after step lengths[b] - 1 (the prefix of length
lengths[b]), at every layer: once a sequence ends the newly computed value is
discarded and the state stays frozen.  The RAN half is stated on the per-layer time
loop (ranGo), which every layer of the RAN driver runs with the same length
vector; the TopDown half is stated on the stacked timestep loop (tdStateAfter)
covering all layers at once. -/
theorem state_frozen_after_sequence_end
    (sigma tau : ℚ → ℚ) (cell : RANCell) (length : ℕ → ℤ) (input_ : ℕ → Mat)
    (hx : Mat × Mat) (max_time b t : ℕ)
    (hb1 : 1 ≤ length b) (hbt : length b ≤ (t : ℤ)) (htm : t < max_time)
    (hs : (RAN._forward_rnn sigma tau cell input_ hx length max_time).isSome = true)
    (sigma' tau' : ℚ → ℚ) (dropout : Mat → Mat) (slots : List TDSlot) (n : ℕ)
    (length' : ℕ → ℤ) (input' : ℕ → Mat) (init : TDState) (max_time' b' t' : ℕ)
    (hb1' : 1 ≤ length' b') (hbt' : length' b' ≤ (t' : ℤ)) (htm' : t' < max_time')
    (hs' : (tdStateAfter sigma' tau' dropout slots n length' input' init
      max_time').isSome = true) :
    (∀ j, ((ranGo sigma tau cell length input_ hx (t + 1)).getD dummyAcc).2.1 b j
        = ((ranGo sigma tau cell length input_ hx (length b).toNat).getD dummyAcc).2.1 b j
      ∧ ((ranGo sigma tau cell length input_ hx (t + 1)).getD dummyAcc).2.2 b j
        = ((ranGo sigma tau cell length input_ hx (length b).toNat).getD dummyAcc).2.2 b j)
    ∧ (∀ k j,
        ((tdStateAfter sigma' tau' dropout slots n length' input' init (t' + 1)).getD
            dummyTD).Ht k b' j
          = ((tdStateAfter sigma' tau' dropout slots n length' input' init
              (length' b').toNat).getD dummyTD).Ht k b' j
      ∧ ((tdStateAfter sigma' tau' dropout slots n length' input' init (t' + 1)).getD
            dummyTD).C k b' j
          = ((tdStateAfter sigma' tau' dropout slots n length' input' init
              (length' b').toNat).getD dummyTD).C k b' j) := by
  constructor
  · have hsg : (ranGo sigma tau cell length input_ hx max_time).isSome = true := hs
    have hlb : ((length b).toNat : ℤ) = length b := Int.toNat_of_nonneg (by omega)
    have hle1 : (length b).toNat ≤ t + 1 := by omega
    have hsT : (ranGo sigma tau cell length input_ hx (t + 1)).isSome = true :=
      ranGo_isSome_le sigma tau cell length input_ hx (t + 1) max_time (by omega) hsg
    have hs0 : (ranGo sigma tau cell length input_ hx (length b).toNat).isSome = true :=
      ranGo_isSome_le sigma tau cell length input_ hx (length b).toNat (t + 1) hle1 hsT
    obtain ⟨acc1, hacc1⟩ := Option.isSome_iff_exists.mp hsT
    obtain ⟨acc0, hacc0⟩ := Option.isSome_iff_exists.mp hs0
    have hchain := ranGo_frozen_chain sigma tau cell length input_ hx b (length b).toNat
      (by omega) (t + 1 - (length b).toNat) acc0 acc1 hacc0
      (by rw [show (length b).toNat + (t + 1 - (length b).toNat) = t + 1 by omega]
          exact hacc1)
    intro j
    simp only [hacc1, hacc0, Option.getD_some]
    exact ⟨hchain.1 j, hchain.2 j⟩
  · have hlb : ((length' b').toNat : ℤ) = length' b' := Int.toNat_of_nonneg (by omega)
    have hle1 : (length' b').toNat ≤ t' + 1 := by omega
    have hsT : (tdStateAfter sigma' tau' dropout slots n length' input' init
        (t' + 1)).isSome = true :=
      tdStateAfter_isSome_le sigma' tau' dropout slots n length' input' init (t' + 1)
        max_time' (by omega) hs'
    have hs0 : (tdStateAfter sigma' tau' dropout slots n length' input' init
        (length' b').toNat).isSome = true :=
      tdStateAfter_isSome_le sigma' tau' dropout slots n length' input' init
        (length' b').toNat (t' + 1) hle1 hsT
    obtain ⟨st1, hst1⟩ := Option.isSome_iff_exists.mp hsT
    obtain ⟨st0, hst0⟩ := Option.isSome_iff_exists.mp hs0
    have hchain := tdStateAfter_frozen_chain sigma' tau' dropout slots n length' input'
      init b' (length' b').toNat (by omega) (t' + 1 - (length' b').toNat) st0 st1 hst0
      (by rw [show (length' b').toNat + (t' + 1 - (length' b').toNat) = t' + 1 by omega]
          exact hst1)
    intro k j
    simp only [hst1, hst0, Option.getD_some]
    exact ⟨(hchain k j).1, (hchain k j).2⟩

/-- Witness for C3 at concrete models of both drivers, sample 0, length 1, t = 1,
max_time = 2. -/
theorem state_frozen_after_sequence_end_witness :
    (1 : ℤ) ≤ wLenOne 0 ∧ wLenOne 0 ≤ ((1 : ℕ) : ℤ) ∧ (1 : ℕ) < 2
    ∧ (RAN._forward_rnn id id wRANCell wInput (oneMat, oneMat) wLenOne 2).isSome = true
    ∧ (tdStateAfter id id (fun v => v) wSlots 2 wLenOne wInput wTD0 2).isSome = true
    ∧ ((ranGo id id wRANCell wLenOne wInput (oneMat, oneMat) 2).getD dummyAcc).2.1 0 0
        = ((ranGo id id wRANCell wLenOne wInput (oneMat, oneMat)
            (wLenOne 0).toNat).getD dummyAcc).2.1 0 0
    ∧ ((tdStateAfter id id (fun v => v) wSlots 2 wLenOne wInput wTD0 2).getD
          dummyTD).Ht 0 0 0
        = ((tdStateAfter id id (fun v => v) wSlots 2 wLenOne wInput wTD0
            (wLenOne 0).toNat).getD dummyTD).Ht 0 0 0 := by
  refine ⟨by decide, by decide, by decide, by decide, by decide, ?_, ?_⟩
  · exact ((state_frozen_after_sequence_end id id wRANCell wLenOne wInput
      (oneMat, oneMat) 2 0 1 (by decide) (by decide) (by decide) (by decide)
      id id (fun v => v) wSlots 2 wLenOne wInput wTD0 2 0 1
      (by decide) (by decide) (by decide) (by decide)).1 0).1
  · exact ((state_frozen_after_sequence_end id id wRANCell wLenOne wInput
      (oneMat, oneMat) 2 0 1 (by decide) (by decide) (by decide) (by decide)
      id id (fun v => v) wSlots 2 wLenOne wInput wTD0 2 0 1
      (by decide) (by decide) (by decide) (by decide)).2 0 0).1

/-- Success of the inner layer loop after more layers implies success after fewer. -/
theorem tdLayers_isSome_add (sigma tau : ℚ → ℚ) (dropout : Mat → Mat)
    (slots : List TDSlot) (n : ℕ) (length : ℕ → ℤ) (input_ : ℕ → Mat) (t : ℕ)
    (st : TDState) (s d : ℕ)
    (h : (tdLayers sigma tau dropout slots n length input_ t st (s + d)).isSome = true) :
    (tdLayers sigma tau dropout slots n length input_ t st s).isSome = true := by
  induction d with
  | zero => exact h
  | succ d ih =>
    apply ih
    rw [show s + (d + 1) = (s + d) + 1 by omega] at h
    simp only [tdLayers] at h
    cases hg : tdLayers sigma tau dropout slots n length input_ t st (s + d) with
    | none => rw [hg] at h; simp at h
    | some mid => simp [hg]

/-- Success of the inner layer loop at u layers implies success at s below u. -/
theorem tdLayers_isSome_le (sigma tau : ℚ → ℚ) (dropout : Mat → Mat)
    (slots : List TDSlot) (n : ℕ) (length : ℕ → ℤ) (input_ : ℕ → Mat) (t : ℕ)
    (st : TDState) (s u : ℕ) (hsu : s ≤ u)
    (h : (tdLayers sigma tau dropout slots n length input_ t st u).isSome = true) :
    (tdLayers sigma tau dropout slots n length input_ t st s).isSome = true := by
  obtain ⟨d, rfl⟩ := Nat.le.dest hsu
  exact tdLayers_isSome_add sigma tau dropout slots n length input_ t st s d h

/-- One (t, l) iteration commits exactly the masked raw cell output into slot l and
leaves every other slot unchanged. -/
theorem tdInner_slot (sigma tau : ℚ → ℚ) (dropout : Mat → Mat) (slots : List TDSlot)
    (n : ℕ) (length : ℕ → ℤ) (input_ : ℕ → Mat) (t : ℕ) (st : TDState) (l : ℕ)
    (st' : TDState)
    (h : tdInner sigma tau dropout slots n length input_ t st l = some st') :
    ∃ hc, tdRawOutput sigma tau dropout slots n input_ t st l = some hc
      ∧ st'.Ht l = (mask_time t length hc.1 hc.2 (st.Ht l) (st.C l)).1
      ∧ st'.C l = (mask_time t length hc.1 hc.2 (st.Ht l) (st.C l)).2
      ∧ ∀ k, k ≠ l → st'.Ht k = st.Ht k ∧ st'.C k = st.C k := by
  obtain ⟨hc, hr, rfl⟩ := tdInner_inv sigma tau dropout slots n length input_ t st l st' h
  refine ⟨hc, hr, ?_, ?_, ?_⟩
  · funext b j
    show (if l = l then (fun b j => st.Ht l b j * 0
        + (mask_time t length hc.1 hc.2 (st.Ht l) (st.C l)).1 b j) else st.Ht l) b j = _
    rw [if_pos rfl]
    ring
  · funext b j
    show (if l = l then (fun b j => st.C l b j * 0
        + (mask_time t length hc.1 hc.2 (st.Ht l) (st.C l)).2 b j) else st.C l) b j = _
    rw [if_pos rfl]
    ring
  · intro k hk
    constructor
    · show (if k = l then _ else st.Ht k) = st.Ht k
      rw [if_neg hk]
    · show (if k = l then _ else st.C k) = st.C k
      rw [if_neg hk]

/-- Layers at index L and above never touch the slots below L: running d further
layers of the inner loop preserves every slot k < L. -/
theorem tdLayers_frame (sigma tau : ℚ → ℚ) (dropout : Mat → Mat) (slots : List TDSlot)
    (n : ℕ) (length : ℕ → ℤ) (input_ : ℕ → Mat) (t : ℕ) (st : TDState) (L : ℕ) :
    ∀ d stL stLd, tdLayers sigma tau dropout slots n length input_ t st L = some stL →
      tdLayers sigma tau dropout slots n length input_ t st (L + d) = some stLd →
      ∀ k, k < L → stLd.Ht k = stL.Ht k ∧ stLd.C k = stL.C k := by
  intro d
  induction d with
  | zero =>
    intro stL stLd hL hLd
    rw [Nat.add_zero, hL] at hLd
    simp only [Option.some.injEq] at hLd
    subst hLd
    exact fun k _ => ⟨rfl, rfl⟩
  | succ d ih =>
    intro stL stLd hL hLd
    rw [show L + (d + 1) = (L + d) + 1 by omega] at hLd
    simp only [tdLayers] at hLd
    cases hg : tdLayers sigma tau dropout slots n length input_ t st (L + d) with
    | none => rw [hg] at hLd; simp at hLd
    | some mid =>
      rw [hg] at hLd
      simp only [Option.some_bind] at hLd
      obtain ⟨_, _, _, _, hframe⟩ :=
        tdInner_slot sigma tau dropout slots n length input_ t mid (L + d) stLd hLd
      intro k hk
      have hmid := ih stL mid hL hg k hk
      have hk2 : k ≠ L + d := by omega
      exact ⟨(hframe k hk2).1.trans hmid.1, (hframe k hk2).2.trans hmid.2⟩

/-- The raw cell invocation of layer 0 succeeds exactly through the topdown variant
of slot 0, on bottom input input_[t], top input Ht[1] and recurrent state slot 0. -/
theorem tdRawOutput_zero_inv (sigma tau : ℚ → ℚ) (dropout : Mat → Mat)
    (slots : List TDSlot) (n : ℕ) (input_ : ℕ → Mat) (t : ℕ) (st : TDState)
    (hc : Mat × Mat)
    (h : tdRawOutput sigma tau dropout slots n input_ t st 0 = some hc) :
    ∃ cell, slots.get? 0 = some (TDSlot.topdown cell)
      ∧ cell.forward sigma tau (input_ t) (st.Ht 1) (st.Ht 0, st.C 0) = some hc := by
  unfold tdRawOutput at h
  cases hget : slots.get? 0 with
  | none => rw [hget] at h; exact absurd h (by simp)
  | some slot =>
    rw [hget] at h
    simp only [if_pos rfl] at h
    cases slot with
    | topdown cell => exact ⟨cell, rfl, h⟩
    | vanilla cell => exact absurd h (by simp)

/-- C5: in TopDownLSTM.forward the top input consumed by layer 0 at a timestep
t >= 1 is slot 1 of the state reached before any layer has advanced within
timestep t (so layer 0 never reads the time-t value of layer 1, since layers
advance bottom to top within a timestep), and that slot equals the committed
masked hidden state produced by layer 1 during timestep t - 1; at timestep 0 the
consumed top input is the initial hidden state of layer 1. -/
theorem layer0_top_input_is_previous_timestep (sigma tau : ℚ → ℚ)
    (dropout : Mat → Mat) (slots : List TDSlot) (n : ℕ) (length : ℕ → ℤ)
    (input_ : ℕ → Mat) (init : TDState) (t : ℕ) (hn : 2 ≤ n) (ht : 1 ≤ t)
    (hs : (tdStateAfter sigma tau dropout slots n length input_ init
      (t + 1)).isSome = true) :
    (∃ cell hc,
        slots.get? 0 = some (TDSlot.topdown cell)
        ∧ cell.forward sigma tau (input_ t)
            (((tdStateAfter sigma tau dropout slots n length input_ init t).getD
                dummyTD).Ht 1)
            (((tdStateAfter sigma tau dropout slots n length input_ init t).getD
                dummyTD).Ht 0,
             ((tdStateAfter sigma tau dropout slots n length input_ init t).getD
                dummyTD).C 0) = some hc)
    ∧ (∃ hc,
        tdRawOutput sigma tau dropout slots n input_ (t - 1)
            ((tdLayers sigma tau dropout slots n length input_ (t - 1)
              ((tdStateAfter sigma tau dropout slots n length input_ init
                (t - 1)).getD dummyTD) 1).getD dummyTD) 1 = some hc
        ∧ ((tdStateAfter sigma tau dropout slots n length input_ init t).getD
              dummyTD).Ht 1
            = (mask_time (t - 1) length hc.1 hc.2
                (((tdLayers sigma tau dropout slots n length input_ (t - 1)
                  ((tdStateAfter sigma tau dropout slots n length input_ init
                    (t - 1)).getD dummyTD) 1).getD dummyTD).Ht 1)
                (((tdLayers sigma tau dropout slots n length input_ (t - 1)
                  ((tdStateAfter sigma tau dropout slots n length input_ init
                    (t - 1)).getD dummyTD) 1).getD dummyTD).C 1)).1)
    ∧ (∃ cell hc,
        slots.get? 0 = some (TDSlot.topdown cell)
        ∧ cell.forward sigma tau (input_ 0) (init.Ht 1)
            (init.Ht 0, init.C 0) = some hc) := by
  obtain ⟨stFin, hfin⟩ := Option.isSome_iff_exists.mp hs
  have hfin2 := hfin
  simp only [tdStateAfter] at hfin2
  obtain ⟨stT, hAt, hstep⟩ := Option.bind_eq_some.mp hfin2
  have hstep2 : tdLayers sigma tau dropout slots n length input_ t stT n = some stFin :=
    hstep
  refine ⟨?_, ?_, ?_⟩
  · have hs1 : (tdLayers sigma tau dropout slots n length input_ t stT 1).isSome = true :=
      tdLayers_isSome_le sigma tau dropout slots n length input_ t stT 1 n (by omega)
        (by simp [hstep2])
    obtain ⟨st1, h1⟩ := Option.isSome_iff_exists.mp hs1
    simp only [tdLayers, Option.some_bind] at h1
    obtain ⟨hc, hr, _⟩ := tdInner_inv sigma tau dropout slots n length input_ t stT 0
      st1 h1
    obtain ⟨cell, hget, hfwd⟩ := tdRawOutput_zero_inv sigma tau dropout slots n input_
      t stT hc hr
    refine ⟨cell, hc, hget, ?_⟩
    simp only [hAt, Option.getD_some]
    exact hfwd
  · obtain ⟨s, rfl⟩ : ∃ s, t = s + 1 := ⟨t - 1, by omega⟩
    simp only [Nat.add_sub_cancel]
    have hAt' := hAt
    simp only [tdStateAfter] at hAt'
    obtain ⟨stPrev, hPrev, hstepPrev⟩ := Option.bind_eq_some.mp hAt'
    have hstepPrev2 : tdLayers sigma tau dropout slots n length input_ s stPrev n
        = some stT := hstepPrev
    have hs2 : (tdLayers sigma tau dropout slots n length input_ s stPrev 2).isSome
        = true :=
      tdLayers_isSome_le sigma tau dropout slots n length input_ s stPrev 2 n hn
        (by simp [hstepPrev2])
    obtain ⟨mid2, hmid2⟩ := Option.isSome_iff_exists.mp hs2
    have hfr := tdLayers_frame sigma tau dropout slots n length input_ s stPrev 2
      (n - 2) mid2 stT hmid2
      (by rw [show 2 + (n - 2) = n by omega]; exact hstepPrev2) 1 (by omega)
    have hmid2' := hmid2
    simp only [tdLayers] at hmid2'
    obtain ⟨mid1, hmid1, hinner1⟩ := Option.bind_eq_some.mp hmid2'
    obtain ⟨hc, hr1, hslotH, _, _⟩ := tdInner_slot sigma tau dropout slots n length
      input_ s mid1 1 mid2 hinner1
    have hmid1n : tdLayers sigma tau dropout slots n length input_ s stPrev 1
        = some mid1 := hmid1
    refine ⟨hc, ?_, ?_⟩
    · simp only [hPrev, Option.getD_some, hmid1n]
      exact hr1
    · simp only [hAt, hPrev, hmid1n, Option.getD_some]
      exact hfr.1.trans hslotH
  · have hs1 : (tdStateAfter sigma tau dropout slots n length input_ init 1).isSome
        = true :=
      tdStateAfter_isSome_le sigma tau dropout slots n length input_ init 1 (t + 1)
        (by omega) hs
    obtain ⟨st1f, hA1⟩ := Option.isSome_iff_exists.mp hs1
    simp only [tdStateAfter, Option.some_bind] at hA1
    have hA1' : tdLayers sigma tau dropout slots n length input_ 0 init n = some st1f :=
      hA1
    have hsl1 : (tdLayers sigma tau dropout slots n length input_ 0 init 1).isSome
        = true :=
      tdLayers_isSome_le sigma tau dropout slots n length input_ 0 init 1 n (by omega)
        (by simp [hA1'])
    obtain ⟨st1, h1⟩ := Option.isSome_iff_exists.mp hsl1
    simp only [tdLayers, Option.some_bind] at h1
    obtain ⟨hc, hr, _⟩ := tdInner_inv sigma tau dropout slots n length input_ 0 init 0
      st1 h1
    obtain ⟨cell, hget, hfwd⟩ := tdRawOutput_zero_inv sigma tau dropout slots n input_
      0 init hc hr
    exact ⟨cell, hc, hget, hfwd⟩

/-- Witness for C5 at the concrete two-layer stack, t = 1. -/
theorem layer0_top_input_is_previous_timestep_witness :
    (2 : ℕ) ≤ 2 ∧ (1 : ℕ) ≤ 1
    ∧ (tdStateAfter id id (fun v => v) wSlots 2 wLenOne wInput wTD0 2).isSome = true
    ∧ ((∃ cell hc,
        wSlots.get? 0 = some (TDSlot.topdown cell)
        ∧ cell.forward id id (wInput 1)
            (((tdStateAfter id id (fun v => v) wSlots 2 wLenOne wInput wTD0 1).getD
                dummyTD).Ht 1)
            (((tdStateAfter id id (fun v => v) wSlots 2 wLenOne wInput wTD0 1).getD
                dummyTD).Ht 0,
             ((tdStateAfter id id (fun v => v) wSlots 2 wLenOne wInput wTD0 1).getD
                dummyTD).C 0) = some hc)
    ∧ (∃ hc,
        tdRawOutput id id (fun v => v) wSlots 2 wInput 0
            ((tdLayers id id (fun v => v) wSlots 2 wLenOne wInput 0
              ((tdStateAfter id id (fun v => v) wSlots 2 wLenOne wInput wTD0 0).getD
                dummyTD) 1).getD dummyTD) 1 = some hc
        ∧ ((tdStateAfter id id (fun v => v) wSlots 2 wLenOne wInput wTD0 1).getD
              dummyTD).Ht 1
            = (mask_time 0 wLenOne hc.1 hc.2
                (((tdLayers id id (fun v => v) wSlots 2 wLenOne wInput 0
                  ((tdStateAfter id id (fun v => v) wSlots 2 wLenOne wInput wTD0 0).getD
                    dummyTD) 1).getD dummyTD).Ht 1)
                (((tdLayers id id (fun v => v) wSlots 2 wLenOne wInput 0
                  ((tdStateAfter id id (fun v => v) wSlots 2 wLenOne wInput wTD0 0).getD
                    dummyTD) 1).getD dummyTD).C 1)).1)
    ∧ (∃ cell hc,
        wSlots.get? 0 = some (TDSlot.topdown cell)
        ∧ cell.forward id id (wInput 0) (wTD0.Ht 1)
            (wTD0.Ht 0, wTD0.C 0) = some hc)) := by
  refine ⟨by decide, by decide, by decide, ?_⟩
  exact layer0_top_input_is_previous_timestep id id (fun v => v) wSlots 2 wLenOne
    wInput wTD0 1 (by decide) (by decide) (by decide)

/-- C7: TopDownLSTM construction fails with a configuration error exactly when
num_layers < 2; for every num_layers at least 2 construction succeeds, and the
resulting stack holds TopDownLSTMCells at slots 0 to num_layers - 2 (slot 0 sized
by input_size, the others by hidden_size) and the plain bottom-only LSTM cell at
slot num_layers - 1. -/
theorem tdlstm_init_layer_structure (input_size hidden_size num_layers : ℕ)
    (mkCell : ℕ → TopDownLSTMCell) (mkTop : LSTMCell) :
    (TopDownLSTM.init input_size hidden_size num_layers mkCell mkTop = none
      ↔ num_layers < 2)
    ∧ (2 ≤ num_layers → ∃ m,
        TopDownLSTM.init input_size hidden_size num_layers mkCell mkTop = some m
        ∧ m.num_layers = num_layers
        ∧ m.slots.length = num_layers
        ∧ (∀ l, l < num_layers - 1 → m.slots.get? l
            = some (TDSlot.topdown (mkCell (if l = 0 then input_size else hidden_size))))
        ∧ m.slots.get? (num_layers - 1) = some (TDSlot.vanilla mkTop)) := by
  by_cases h2 : 2 ≤ num_layers
  · constructor
    · simp only [TopDownLSTM.init, if_pos h2]
      constructor
      · intro h; exact absurd h (by simp)
      · intro h; omega
    · intro _
      have hini : TopDownLSTM.init input_size hidden_size num_layers mkCell mkTop
          = some { input_size := input_size,
                   hidden_size := hidden_size,
                   num_layers := num_layers,
                   slots := (List.range (num_layers - 1)).map
                       (fun layer => TDSlot.topdown
                         (mkCell (if layer = 0 then input_size else hidden_size)))
                     ++ [TDSlot.vanilla mkTop] } := by
        simp only [TopDownLSTM.init, if_pos h2]
      refine ⟨_, hini, rfl, ?_, ?_, ?_⟩
      · simp only [List.length_append, List.length_map, List.length_range,
          List.length_singleton]
        omega
      · intro l hl
        rw [List.get?_append (by simp only [List.length_map, List.length_range]; omega)]
        rw [List.get?_map, List.get?_range hl]
        rfl
      · rw [List.get?_append_right (by
          simp only [List.length_map, List.length_range]; omega)]
        simp only [List.length_map, List.length_range, Nat.sub_self]
        rfl
  · constructor
    · simp only [TopDownLSTM.init, if_neg h2]
      constructor
      · intro _; omega
      · intro _; trivial
    · intro h; exact absurd h h2

/-- Witness for C7 at num_layers = 2 and concrete cell initialisers. -/
theorem tdlstm_init_layer_structure_witness :
    (2 : ℕ) ≤ 2
    ∧ (∃ m, TopDownLSTM.init 3 1 2 (fun _ => wTDCell) wLSTMCell = some m
        ∧ m.num_layers = 2
        ∧ m.slots.length = 2
        ∧ (∀ l, l < 2 - 1 → m.slots.get? l
            = some (TDSlot.topdown ((fun _ => wTDCell) (if l = 0 then 3 else 1))))
        ∧ m.slots.get? (2 - 1) = some (TDSlot.vanilla wLSTMCell)) :=
  ⟨by decide,
   (tdlstm_init_layer_structure 3 1 2 (fun _ => wTDCell) wLSTMCell).2 (by decide)⟩

/-- C4: the claim states that calling forward with hx omitted returns the same
result as an explicit all-zero initial state; in the code both drivers raise
instead when hx is omitted (ran.py line 142 references the undefined bare name
num_layers, a NameError, and topdown.py line 143 runs Ht, C = hx which unpacks
None, a TypeError), while the explicit zero state returns normally, so the two
calls never agree.  This theorem evaluates both drivers at the failing input. -/
theorem forward_with_hx_omitted_raises :
    RAN.forward id id (fun s => s) wRAN wInput 1 none none = none
    ∧ (RAN.forward id id (fun s => s) wRAN wInput 1
        (some (fun _ => zeroMat, fun _ => zeroMat)) none).isSome = true
    ∧ TopDownLSTM.forward id id (fun v => v) wTDLSTM wInput 1 none none = none
    ∧ (TopDownLSTM.forward id id (fun v => v) wTDLSTM wInput 1
        (some (fun _ => zeroMat, fun _ => zeroMat)) none).isSome = true :=
  ⟨rfl, by decide, rfl, by decide⟩
